import Mathlib

/-!
Verification of the OrderFlow repository: a shallow embedding of the order
data model, the in-memory repository (`pkg/order/memory/memory.go`), the
PostgreSQL-backed repositories (`pkg/order/postgres` and `order/pgstore.go`),
and the HTTP handlers / authentication middleware (`cmd/api/main.go`).
-/

/-- The order entity: `pkg/order/order.go`, struct `Order`
(`ID string`, `Item string`, `Quantity int`). -/
structure Order where
  ID : String
  Item : String
  Quantity : Int
deriving DecidableEq, Repr

/-- Go's zero value of the `Order` struct, returned by `Get` on a miss. -/
def zeroOrder : Order := ⟨"", "", 0⟩

/-- Error vocabulary of the repository layer: `order.ErrNotFound`, the
context errors (`context.Canceled`, `context.DeadlineExceeded`), and generic
backing-store failures. -/
inductive RepoError where
  | notFound
  | cancelled
  | deadlineExceeded
  | storeError
deriving DecidableEq, Repr

/-- The caller's `context.Context`, reduced to its cancellation signal. -/
structure Ctx where
  cancelled : Bool
deriving DecidableEq, Repr

/-- A Go slice value: Go distinguishes the nil slice (`var s []T`) from a
non-nil empty slice (`make([]T, 0)`); both have length 0 but the nil slice
is "absent" (it JSON-encodes as `null`, not `[]`). -/
structure GoSlice (α : Type) where
  isNil : Bool
  elems : List α
deriving DecidableEq, Repr

/-- `append(s, x)` always yields a non-nil slice. -/
def goAppend {α : Type} (s : GoSlice α) (x : α) : GoSlice α :=
  ⟨false, s.elems ++ [x]⟩

/-- The zero value `var s []T`: a nil slice. -/
def goNilSlice {α : Type} : GoSlice α := ⟨true, []⟩

/-- A non-nil slice made by `make([]T, 0, n)`. -/
def goEmptySlice {α : Type} : GoSlice α := ⟨false, []⟩

/-- The in-memory repository's backing map `map[string]order.Order`,
embedded as an association list from identifier to order. -/
abbrev Mem := List (String × Order)

/-- Map membership test `_, ok := m[k]`. -/
def hasKey (m : Mem) (k : String) : Bool :=
  match m with
  | [] => false
  | p :: rest => if p.1 = k then true else hasKey rest k

/-- Map read `v, ok := m[k]` (the bound value when present). -/
def mapLookup (m : Mem) (k : String) : Option Order :=
  match m with
  | [] => none
  | p :: rest => if p.1 = k then some p.2 else mapLookup rest k

/-- Map assignment `m[k] = v`: rebinds the key if present, otherwise adds
the binding. -/
def mapAssign (m : Mem) (k : String) (v : Order) : Mem :=
  if hasKey m k then m.map (fun p => if p.1 = k then (k, v) else p)
  else m ++ [(k, v)]

/-- Map removal `delete(m, k)`. -/
def mapDelete (m : Mem) (k : String) : Mem :=
  match m with
  | [] => []
  | p :: rest => if p.1 = k then mapDelete rest k else p :: mapDelete rest k

/-- `memory.Repository.Create` (memory.go:22-28): unconditionally stores
the order under its ID and returns nil. The context is ignored. -/
def Memory.Create (_ctx : Ctx) (o : Order) (m : Mem) : Mem × Option RepoError :=
  (mapAssign m o.ID o, none)

/-- `memory.Repository.Get` (memory.go:30-39): returns the stored order, or
the zero order plus `ErrNotFound` when the key is absent. -/
def Memory.Get (_ctx : Ctx) (id : String) (m : Mem) : Order × Option RepoError :=
  match mapLookup m id with
  | some o => (o, none)
  | none => (zeroOrder, some RepoError.notFound)

/-- `memory.Repository.List` (memory.go:41-50): builds a non-nil slice with
`make([]order.Order, 0, len)` and appends every stored order. -/
def Memory.ListAll (_ctx : Ctx) (m : Mem) : GoSlice Order × Option RepoError :=
  (m.foldl (fun s p => goAppend s p.2) goEmptySlice, none)

/-- `memory.Repository.Update` (memory.go:52-61): `ErrNotFound` when the ID
is absent, otherwise rebinds the ID to the new order. -/
def Memory.Update (_ctx : Ctx) (o : Order) (m : Mem) : Mem × Option RepoError :=
  match mapLookup m o.ID with
  | some _ => (mapAssign m o.ID o, none)
  | none => (m, some RepoError.notFound)

/-- `memory.Repository.Delete` (memory.go:63-72): `ErrNotFound` when the ID
is absent, otherwise removes the binding. -/
def Memory.Delete (_ctx : Ctx) (id : String) (m : Mem) : Mem × Option RepoError :=
  match mapLookup m id with
  | some _ => (mapDelete m id, none)
  | none => (m, some RepoError.notFound)

/-- `order.Store.Create` from the root `order` package: stores the order
under its ID; the method has no error return at all. -/
def Store.Create (o : Order) (m : Mem) : Mem :=
  mapAssign m o.ID o

/- Lemmas about the map embedding. -/

theorem mapLookup_append_self (m : Mem) (k : String) (v : Order)
    (h : hasKey m k = false) : mapLookup (m ++ [(k, v)]) k = some v := by
  induction m with
  | nil => simp [mapLookup]
  | cons p rest ih =>
    by_cases hk : p.1 = k
    · simp [hasKey, hk] at h
    · simp only [hasKey, if_neg hk] at h
      simp only [List.cons_append, mapLookup, if_neg hk]
      exact ih h

theorem mapLookup_replace_self (m : Mem) (k : String) (v : Order)
    (h : hasKey m k = true) :
    mapLookup (m.map (fun p => if p.1 = k then (k, v) else p)) k = some v := by
  induction m with
  | nil => simp [hasKey] at h
  | cons p rest ih =>
    by_cases hk : p.1 = k
    · simp [mapLookup, hk]
    · simp only [hasKey, if_neg hk] at h
      simp only [List.map_cons, if_neg hk, mapLookup]
      exact ih h

theorem mapLookup_assign_self (m : Mem) (k : String) (v : Order) :
    mapLookup (mapAssign m k v) k = some v := by
  unfold mapAssign
  by_cases h : hasKey m k = true
  · rw [if_pos h]; exact mapLookup_replace_self m k v h
  · rw [if_neg h]
    exact mapLookup_append_self m k v (by simpa using h)

theorem mapLookup_append_ne (m : Mem) (k k' : String) (v : Order)
    (h : k' ≠ k) : mapLookup (m ++ [(k, v)]) k' = mapLookup m k' := by
  induction m with
  | nil =>
    have hkk : ¬ k = k' := fun hh => h hh.symm
    simp [mapLookup, hkk]
  | cons p rest ih =>
    by_cases hk : p.1 = k'
    · simp [mapLookup, hk]
    · simp only [List.cons_append, mapLookup, if_neg hk]
      exact ih

theorem mapLookup_replace_ne (m : Mem) (k k' : String) (v : Order)
    (h : k' ≠ k) :
    mapLookup (m.map (fun p => if p.1 = k then (k, v) else p)) k' =
      mapLookup m k' := by
  induction m with
  | nil => simp [mapLookup]
  | cons p rest ih =>
    by_cases hk : p.1 = k
    · have hkk : ¬ k = k' := fun hh => h hh.symm
      have hpk : ¬ p.1 = k' := by rw [hk]; exact hkk
      simp only [List.map_cons, if_pos hk, mapLookup, if_neg hkk, if_neg hpk]
      exact ih
    · simp only [List.map_cons, if_neg hk, mapLookup]
      by_cases hp : p.1 = k'
      · simp [hp]
      · simp only [if_neg hp]
        exact ih

theorem mapLookup_assign_ne (m : Mem) (k k' : String) (v : Order)
    (h : k' ≠ k) : mapLookup (mapAssign m k v) k' = mapLookup m k' := by
  unfold mapAssign
  by_cases hh : hasKey m k = true
  · rw [if_pos hh]; exact mapLookup_replace_ne m k k' v h
  · rw [if_neg hh]; exact mapLookup_append_ne m k k' v h

theorem mapLookup_delete_self (m : Mem) (k : String) :
    mapLookup (mapDelete m k) k = none := by
  induction m with
  | nil => simp [mapDelete, mapLookup]
  | cons p rest ih =>
    by_cases hk : p.1 = k
    · simpa [mapDelete, hk] using ih
    · simpa [mapDelete, mapLookup, hk] using ih

theorem mapLookup_delete_ne (m : Mem) (k k' : String) (h : k' ≠ k) :
    mapLookup (mapDelete m k) k' = mapLookup m k' := by
  induction m with
  | nil => simp [mapDelete]
  | cons p rest ih =>
    by_cases hk : p.1 = k
    · have hpk : ¬ p.1 = k' := by rw [hk]; exact fun hh => h hh.symm
      simp only [mapDelete, if_pos hk, mapLookup, if_neg hpk]
      exact ih
    · simp only [mapDelete, if_neg hk, mapLookup]
      by_cases hp : p.1 = k'
      · simp [hp]
      · simp only [if_neg hp]
        exact ih

/-- Claim C1: for every order e with a non-empty identifier, Create(e) on the
in-memory repository followed by Get(e.ID) on the resulting state returns
exactly e (item and quantity unchanged) with no error. -/
theorem create_then_get_roundtrip (c c' : Ctx) (e : Order) (m : Mem)
    (h : e.ID ≠ "") :
    Memory.Get c' e.ID (Memory.Create c e m).1 = (e, none) := by
  have hl := mapLookup_assign_self m e.ID e
  simp [Memory.Get, Memory.Create, hl]

/-- Witness for C1 at a concrete order and the empty store. -/
theorem create_then_get_roundtrip_witness :
    Memory.Get ⟨false⟩ "1" (Memory.Create ⟨false⟩ ⟨"1", "Widget", 2⟩ []).1 =
      (⟨"1", "Widget", 2⟩, none) :=
  create_then_get_roundtrip ⟨false⟩ ⟨false⟩ ⟨"1", "Widget", 2⟩ [] (by decide)

/-- Claim C2: Get, Update (with an order whose ID is the absent id) and
Delete on an identifier not present in the in-memory store all fail with
`ErrNotFound`, leaving the state unchanged. -/
theorem absent_id_ops_notFound (c : Ctx) (id : String) (o : Order) (m : Mem)
    (hm : mapLookup m id = none) (ho : o.ID = id) :
    Memory.Get c id m = (zeroOrder, some RepoError.notFound) ∧
    Memory.Update c o m = (m, some RepoError.notFound) ∧
    Memory.Delete c id m = (m, some RepoError.notFound) := by
  subst ho
  refine ⟨?_, ?_, ?_⟩ <;> simp [Memory.Get, Memory.Update, Memory.Delete, hm]

/-- Witness for C2 on the empty store. -/
theorem absent_id_ops_notFound_witness :
    Memory.Get ⟨false⟩ "missing" [] = (zeroOrder, some RepoError.notFound) ∧
    Memory.Update ⟨false⟩ ⟨"missing", "x", 1⟩ [] =
      ([], some RepoError.notFound) ∧
    Memory.Delete ⟨false⟩ "missing" [] = ([], some RepoError.notFound) :=
  absent_id_ops_notFound ⟨false⟩ "missing" ⟨"missing", "x", 1⟩ []
    (by decide) rfl

/-- Claim C4: when the in-memory store already holds an order under id, a
Create with the same id succeeds (nil error) and silently replaces the
stored order, leaving every other identifier untouched; the root package's
`Store.Create` behaves the same and cannot fail at all. -/
theorem create_overwrites_existing (c : Ctx) (id : String) (old o : Order)
    (m : Mem) (hm : mapLookup m id = some old) (ho : o.ID = id) :
    (Memory.Create c o m).2 = none ∧
    mapLookup (Memory.Create c o m).1 id = some o ∧
    (∀ id', id' ≠ id → mapLookup (Memory.Create c o m).1 id' = mapLookup m id') ∧
    mapLookup (Store.Create o m) id = some o := by
  subst ho
  exact ⟨rfl, mapLookup_assign_self m o.ID o,
    fun id' h' => mapLookup_assign_ne m o.ID id' o h',
    mapLookup_assign_self m o.ID o⟩

/-- Witness for C4: overwriting order "1" in a one-element store. -/
theorem create_overwrites_existing_witness :
    (Memory.Create ⟨false⟩ ⟨"1", "Gadget", 5⟩
        [("1", ⟨"1", "Widget", 2⟩)]).2 = none ∧
    mapLookup (Memory.Create ⟨false⟩ ⟨"1", "Gadget", 5⟩
        [("1", ⟨"1", "Widget", 2⟩)]).1 "1" = some ⟨"1", "Gadget", 5⟩ :=
  ⟨(create_overwrites_existing ⟨false⟩ "1" ⟨"1", "Widget", 2⟩
      ⟨"1", "Gadget", 5⟩ [("1", ⟨"1", "Widget", 2⟩)] (by decide) rfl).1,
   (create_overwrites_existing ⟨false⟩ "1" ⟨"1", "Widget", 2⟩
      ⟨"1", "Gadget", 5⟩ [("1", ⟨"1", "Widget", 2⟩)] (by decide) rfl).2.1⟩

/-- The `orders` relational table (id TEXT PRIMARY KEY, item TEXT,
quantity INT), embedded as its list of rows. -/
abbrev Table := List Order

/-- The row set produced by
`UPDATE orders SET item=$2, quantity=$3 WHERE id=$1`: every row whose id
matches gets the new item and quantity; every other row is untouched. -/
def updateRows (t : Table) (o : Order) : Table :=
  t.map (fun r =>
    if r.ID = o.ID then { r with Item := o.Item, Quantity := o.Quantity }
    else r)

/-- `postgres.Repository.Update` (memory.go:126-137): runs the UPDATE
statement; zero affected rows yields `ErrNotFound`. -/
def Postgres.Update (t : Table) (o : Order) : Table × Option RepoError :=
  if t.any (fun r => decide (r.ID = o.ID)) then (updateRows t o, none)
  else (t, some RepoError.notFound)

/-- `postgres.Repository.List` (memory.go:108-124): starts from the nil
slice `var orders []order.Order` and appends each fetched row. -/
def Postgres.List (t : Table) : GoSlice Order :=
  t.foldl goAppend goNilSlice

/-- `order.PGStore.List` (pgstore.go:26-42): same shape — nil slice zero
value, then one append per fetched row. -/
def PGStore.List (t : Table) : GoSlice Order :=
  t.foldl goAppend goNilSlice

/- Error-shape helper lemmas for the in-memory operations. -/

theorem memGet_err (c : Ctx) (id : String) (m : Mem) :
    (Memory.Get c id m).2 = none ∨
    (Memory.Get c id m).2 = some RepoError.notFound := by
  unfold Memory.Get
  cases mapLookup m id <;> simp

theorem memUpdate_err (c : Ctx) (o : Order) (m : Mem) :
    (Memory.Update c o m).2 = none ∨
    (Memory.Update c o m).2 = some RepoError.notFound := by
  unfold Memory.Update
  cases mapLookup m o.ID <;> simp

theorem memDelete_err (c : Ctx) (id : String) (m : Mem) :
    (Memory.Delete c id m).2 = none ∨
    (Memory.Delete c id m).2 = some RepoError.notFound := by
  unfold Memory.Delete
  cases mapLookup m id <;> simp

/-- Claim C5: a successful Update(o) rebinds exactly o.ID to o (full
attribute replacement) and leaves every other identifier's binding
untouched, in the in-memory variant; in the durable variant the UPDATE
statement rewrites exactly the matching rows' item and quantity and leaves
every other row byte-for-byte identical. -/
theorem update_changes_only_target (c : Ctx) (o : Order) (m : Mem)
    (t : Table) (hm : (mapLookup m o.ID).isSome = true) :
    (Memory.Update c o m).2 = none ∧
    mapLookup (Memory.Update c o m).1 o.ID = some o ∧
    (∀ id', id' ≠ o.ID →
      mapLookup (Memory.Update c o m).1 id' = mapLookup m id') ∧
    ((Postgres.Update t o).2 = none →
      ∀ (i : Nat) (r : Order), t[i]? = some r →
        (r.ID ≠ o.ID → (Postgres.Update t o).1[i]? = some r) ∧
        (r.ID = o.ID → (Postgres.Update t o).1[i]? =
          some ⟨r.ID, o.Item, o.Quantity⟩)) := by
  rcases h : mapLookup m o.ID with _ | old
  · rw [h] at hm; simp at hm
  · refine ⟨?_, ?_, ?_, ?_⟩
    · simp [Memory.Update, h]
    · simp [Memory.Update, h, mapLookup_assign_self]
    · intro id' hne
      simp [Memory.Update, h, mapLookup_assign_ne m o.ID id' o hne]
    · intro hok i r hir
      by_cases hc : t.any (fun r => decide (r.ID = o.ID)) = true
      · have h1 : (Postgres.Update t o).1 = updateRows t o := by
          simp [Postgres.Update, hc]
        have hmap : (updateRows t o)[i]? =
            some (if r.ID = o.ID
              then { r with Item := o.Item, Quantity := o.Quantity }
              else r) := by
          simp [updateRows, List.getElem?_map, hir]
        constructor
        · intro hne
          rw [h1, hmap, if_neg hne]
        · intro heq
          rw [h1, hmap, if_pos heq]
      · exfalso
        simp [Postgres.Update, hc] at hok

/-- Witness for C5: updating order "1" in a two-element store. -/
theorem update_changes_only_target_witness :
    (Memory.Update ⟨false⟩ ⟨"1", "Gadget", 5⟩
        [("1", ⟨"1", "Widget", 2⟩), ("2", ⟨"2", "Bolt", 7⟩)]).2 = none ∧
    mapLookup (Memory.Update ⟨false⟩ ⟨"1", "Gadget", 5⟩
        [("1", ⟨"1", "Widget", 2⟩), ("2", ⟨"2", "Bolt", 7⟩)]).1 "1" =
      some ⟨"1", "Gadget", 5⟩ :=
  ⟨(update_changes_only_target ⟨false⟩ ⟨"1", "Gadget", 5⟩
      [("1", ⟨"1", "Widget", 2⟩), ("2", ⟨"2", "Bolt", 7⟩)] [] (by decide)).1,
   (update_changes_only_target ⟨false⟩ ⟨"1", "Gadget", 5⟩
      [("1", ⟨"1", "Widget", 2⟩), ("2", ⟨"2", "Bolt", 7⟩)] [] (by decide)).2.1⟩

/-- Claim C3 counterexample: on an empty table both durable List
implementations return Go's nil slice (the "absent" result that
JSON-encodes as null), because they start from the zero value
`var orders []order.Order` and never append. -/
theorem durable_list_empty_is_nil :
    (Postgres.List ([] : Table)).isNil = true ∧
    (PGStore.List ([] : Table)).isNil = true := by
  decide

/-- Claim C3 (amended): on an empty store the in-memory List returns an
empty but non-nil slice (it is built with `make([]order.Order, 0, ...)`)
and no error, while both durable variants return the nil slice (still with
zero elements and no error). -/
theorem list_empty_store (c : Ctx) :
    Memory.ListAll c [] = (goEmptySlice, none) ∧
    (Memory.ListAll c []).1.isNil = false ∧
    (Memory.ListAll c []).1.elems = [] ∧
    Postgres.List ([] : Table) = goNilSlice ∧
    PGStore.List ([] : Table) = goNilSlice :=
  ⟨rfl, rfl, rfl, rfl, rfl⟩

/-- Claim C8 counterexample: with an already-cancelled context, the
in-memory operations still run to completion and return their normal
outcomes (nil or ErrNotFound) — never a Cancelled/DeadlineExceeded
outcome. -/
theorem cancelled_ctx_ignored_cex :
    (Memory.Create ⟨true⟩ ⟨"1", "Widget", 2⟩ []).2 = none ∧
    (Memory.Create ⟨true⟩ ⟨"1", "Widget", 2⟩ []).2 ≠
      some RepoError.cancelled ∧
    (Memory.Get ⟨true⟩ "1" []).2 = some RepoError.notFound ∧
    (Memory.Get ⟨true⟩ "1" []).2 ≠ some RepoError.cancelled ∧
    (Memory.Get ⟨true⟩ "1" []).2 ≠ some RepoError.deadlineExceeded ∧
    (Memory.Delete ⟨true⟩ "1" []).2 = some RepoError.notFound ∧
    (Memory.Delete ⟨true⟩ "1" []).2 ≠ some RepoError.cancelled := by
  decide

/-- Claim C8 (amended): the in-memory repository's operations accept the
caller's context but never inspect it — each operation's outcome is
identical under a cancelled and an uncancelled context, and is never
`Cancelled`/`DeadlineExceeded`: Create and List always succeed and
Get/Update/Delete return at most `ErrNotFound`. -/
theorem memory_ops_ignore_cancellation (c c' : Ctx) (o : Order)
    (id : String) (m : Mem) :
    Memory.Create c o m = Memory.Create c' o m ∧
    Memory.Get c id m = Memory.Get c' id m ∧
    Memory.ListAll c m = Memory.ListAll c' m ∧
    Memory.Update c o m = Memory.Update c' o m ∧
    Memory.Delete c id m = Memory.Delete c' id m ∧
    (Memory.Create c o m).2 = none ∧
    (Memory.ListAll c m).2 = none ∧
    (Memory.Get c id m).2 ≠ some RepoError.cancelled ∧
    (Memory.Get c id m).2 ≠ some RepoError.deadlineExceeded ∧
    (Memory.Update c o m).2 ≠ some RepoError.cancelled ∧
    (Memory.Update c o m).2 ≠ some RepoError.deadlineExceeded ∧
    (Memory.Delete c id m).2 ≠ some RepoError.cancelled ∧
    (Memory.Delete c id m).2 ≠ some RepoError.deadlineExceeded := by
  refine ⟨rfl, rfl, rfl, rfl, rfl, rfl, rfl, ?_, ?_, ?_, ?_, ?_, ?_⟩ <;>
    rcases memGet_err c id m with h1 | h1 <;>
    rcases memUpdate_err c o m with h2 | h2 <;>
    rcases memDelete_err c id m with h3 | h3 <;>
    simp [h1, h2, h3]

/-- A decimal digit character, as produced by `strconv.FormatInt` base 10. -/
def digitChar (n : Nat) : Char := Char.ofNat (48 + n)

/-- Decimal digit string of a natural number (most significant first). -/
def natDigits (n : Nat) : List Char :=
  if _h : n < 10 then [digitChar n]
  else natDigits (n / 10) ++ [digitChar (n % 10)]
decreasing_by exact Nat.div_lt_self (by omega) (by omega)

/-- `strconv.FormatInt(now, 10)` on the (non-negative) nanosecond
timestamp: the decimal representation. -/
def formatNat (n : Nat) : String := String.mk (natDigits n)

theorem natDigits_ne_nil (n : Nat) : natDigits n ≠ [] := by
  unfold natDigits
  split <;> simp

theorem formatNat_ne_empty (n : Nat) : formatNat n ≠ "" := by
  intro h
  have h2 : natDigits n = [] := congrArg String.data h
  exact natDigits_ne_nil n h2

/-- The Redis keyspace, as "key → stored value". -/
abbrev KV := String → Option String

/-- Session keys are stored under `"session:" + sessionID`. -/
def redisKey (sid : String) : String := "session:" ++ sid

/-- `redisClient.Set`: binds the key. -/
def kvSet (s : KV) (k v : String) : KV :=
  fun k' => if k' = k then some v else s k'

/-- The decoded `/login` request body (`loginRequest` in main.go). -/
structure LoginRequest where
  Username : String
  Password : String

/-- Observable outcome of `loginHandler`: HTTP status, resulting Redis
state, and the `session_id` cookie value set on success. -/
structure LoginResult where
  status : Nat
  sessions : KV
  cookie : Option String

/-- `loginHandler` (main.go): a decode failure or an empty username is a
400; otherwise the session id is the formatted timestamp, the mapping
`session:<sid> → username` is written to Redis (a Redis failure is a 500),
and the cookie is set. The password is never read. -/
def loginHandler (req : Option LoginRequest) (now : Nat) (redisOk : Bool)
    (sessions : KV) : LoginResult :=
  match req with
  | none => ⟨400, sessions, none⟩
  | some r =>
    if r.Username = "" then ⟨400, sessions, none⟩
    else if redisOk then
      ⟨200, kvSet sessions (redisKey (formatNat now)) r.Username,
        some (formatNat now)⟩
    else ⟨500, sessions, none⟩

/-- Observable outcome of the auth gate: the error status written (if
any), and the list of forwarded invocations of the next handler, each
carrying the username attached to the request context. -/
structure GateOutcome where
  status : Option Nat
  forwards : List String
deriving DecidableEq, Repr

/-- `authMiddleware` (main.go): missing cookie → 401; Redis lookup error
(absent key) or empty username → 401; otherwise forward once with the
username in the context. -/
def authMiddleware (cookie : Option String) (sessions : KV) : GateOutcome :=
  match cookie with
  | none => ⟨some 401, []⟩
  | some sid =>
    match sessions (redisKey sid) with
    | none => ⟨some 401, []⟩
    | some user => if user = "" then ⟨some 401, []⟩ else ⟨none, [user]⟩

/-- Every value the session keyspace holds is a non-empty username — the
invariant `loginHandler` maintains, since it only ever stores a username
it has checked to be non-empty. -/
def WellFormedSessions (s : KV) : Prop :=
  ∀ k u, s k = some u → u ≠ ""

theorem loginHandler_preserves_wellformed (req : Option LoginRequest)
    (now : Nat) (ok : Bool) (s : KV) (h : WellFormedSessions s) :
    WellFormedSessions (loginHandler req now ok s).sessions := by
  match req with
  | none => exact h
  | some r =>
    by_cases hu : r.Username = ""
    · simp only [loginHandler, if_pos hu]
      exact h
    · simp only [loginHandler, if_neg hu]
      cases ok with
      | false => exact h
      | true =>
        intro k u hk
        have hk' : kvSet s (redisKey (formatNat now)) r.Username k = some u :=
          hk
        unfold kvSet at hk'
        by_cases hkk : k = redisKey (formatNat now)
        · rw [if_pos hkk] at hk'
          injection hk' with hk'
          exact hk' ▸ hu
        · rw [if_neg hkk] at hk'
          exact h _ _ hk'

/-- Claim C6: the authentication gate, per request: absent session cookie
→ rejected 401 and never forwarded; cookie present but session resolution
fails → rejected 401 and never forwarded; resolution succeeds → forwarded
exactly once with the resolved username attached. (The session keyspace is
assumed well-formed, which `loginHandler` guarantees.) -/
theorem authMiddleware_gate (sessions : KV) (h : WellFormedSessions sessions) :
    authMiddleware none sessions = ⟨some 401, []⟩ ∧
    (∀ sid, sessions (redisKey sid) = none →
      authMiddleware (some sid) sessions = ⟨some 401, []⟩) ∧
    (∀ sid u, sessions (redisKey sid) = some u →
      authMiddleware (some sid) sessions = ⟨none, [u]⟩) := by
  refine ⟨rfl, ?_, ?_⟩
  · intro sid hs
    simp [authMiddleware, hs]
  · intro sid u hs
    have hu : u ≠ "" := h _ _ hs
    simp [authMiddleware, hs, hu]

/-- A concrete session keyspace holding one session for "alice". -/
def demoSessions : KV :=
  fun k => if k = "session:s1" then some "alice" else none

theorem demoSessions_wf : WellFormedSessions demoSessions := by
  intro k u hk
  unfold demoSessions at hk
  by_cases h : k = "session:s1"
  · rw [if_pos h] at hk
    injection hk with hk
    subst hk
    decide
  · rw [if_neg h] at hk
    cases hk

/-- Witness for C6: a request with a valid cookie is forwarded once as
"alice". -/
theorem authMiddleware_gate_witness :
    authMiddleware (some "s1") demoSessions = ⟨none, ["alice"]⟩ :=
  (authMiddleware_gate demoSessions demoSessions_wf).2.2 "s1" "alice"
    (by decide)

/-- Claim C7: the login outcome is a function of the username only — two
requests with the same non-empty username and different passwords produce
identical results; a non-empty username always yields 200 and a session
bound to that username; an empty username is rejected with 400 and no
session is created. -/
theorem loginHandler_no_password_check (u p q : String) (now : Nat)
    (sessions : KV) (h : u ≠ "") :
    (∀ ok, loginHandler (some ⟨u, p⟩) now ok sessions =
      loginHandler (some ⟨u, q⟩) now ok sessions) ∧
    (loginHandler (some ⟨u, p⟩) now true sessions).status = 200 ∧
    (loginHandler (some ⟨u, p⟩) now true sessions).sessions
      (redisKey (formatNat now)) = some u ∧
    (∀ r, (loginHandler (some ⟨"", r⟩) now true sessions).status = 400 ∧
      (loginHandler (some ⟨"", r⟩) now true sessions).sessions = sessions) := by
  refine ⟨fun ok => rfl, ?_, ?_, fun r => ?_⟩
  · simp [loginHandler, h]
  · simp [loginHandler, h, kvSet]
  · constructor <;> simp [loginHandler]

/-- Witness for C7: "alice" logs in with some password and gets a 200. -/
theorem loginHandler_no_password_check_witness :
    (loginHandler (some ⟨"alice", "pw1"⟩) 1 true (fun _ => none)).status =
      200 :=
  (loginHandler_no_password_check "alice" "pw1" "pw2" 1 (fun _ => none)
    (by decide)).2.1

/-- `INSERT INTO orders (id,item,quantity) VALUES (...)` against the
primary-key constraint: a duplicate id fails the insert (surfaced as a
store error), otherwise the row is added. -/
def pgInsert (t : Table) (o : Order) : Table × Option RepoError :=
  if t.any (fun r => decide (r.ID = o.ID)) then (t, some RepoError.storeError)
  else (t ++ [o], none)

/-- Observable outcome of an order HTTP handler: status code, the order
echoed in the response body (if any), and the resulting table. -/
structure HttpResult where
  status : Nat
  body : Option Order
  table : Table
deriving DecidableEq, Repr

/-- `createOrderHandler` (main.go): decode failure → 400; a blank id is
replaced by the formatted timestamp before storing; a store failure → 500;
otherwise 201 and the (possibly id-filled) order is echoed. -/
def createOrderHandler (body : Option Order) (now : Nat) (t : Table) :
    HttpResult :=
  match body with
  | none => ⟨400, none, t⟩
  | some o =>
    match pgInsert t (if o.ID = "" then { o with ID := formatNat now }
        else o) with
    | (_, some _) => ⟨500, none, t⟩
    | (t', none) =>
      ⟨201, some (if o.ID = "" then { o with ID := formatNat now } else o),
        t'⟩

/-- `updateOrderHandler` (main.go): decode failure → 400; the decoded
order's ID is overwritten with the path parameter before calling Update;
`ErrNotFound` → 404, other errors → 500; success → 200 echoing the
path-identified order. -/
def updateOrderHandler (pathId : String) (body : Option Order) (t : Table) :
    HttpResult :=
  match body with
  | none => ⟨400, none, t⟩
  | some o =>
    match Postgres.Update t { o with ID := pathId } with
    | (_, some RepoError.notFound) => ⟨404, none, t⟩
    | (_, some _) => ⟨500, none, t⟩
    | (t', none) => ⟨200, some { o with ID := pathId }, t'⟩

/-- Claim C9: a create request with a blank id gets the server-generated
identifier `formatNat now`, which is never empty; the stored row and the
echoed body carry that identifier with the submitted item and quantity
unchanged; a request with a non-empty id is stored and echoed as-is. -/
theorem createOrderHandler_fills_blank_id (o : Order) (now : Nat)
    (t : Table) (hid : o.ID = "")
    (hfree : t.any (fun r => decide (r.ID = formatNat now)) = false) :
    formatNat now ≠ "" ∧
    createOrderHandler (some o) now t =
      ⟨201, some ⟨formatNat now, o.Item, o.Quantity⟩,
        t ++ [⟨formatNat now, o.Item, o.Quantity⟩]⟩ ∧
    (∀ (o' : Order) (t' : Table), o'.ID ≠ "" →
      t'.any (fun r => decide (r.ID = o'.ID)) = false →
      createOrderHandler (some o') now t' = ⟨201, some o', t' ++ [o']⟩) := by
  refine ⟨formatNat_ne_empty now, ?_, ?_⟩
  · have ho1 : ({ o with ID := formatNat now } : Order) =
        ⟨formatNat now, o.Item, o.Quantity⟩ := rfl
    simp [createOrderHandler, hid, pgInsert, hfree, ho1]
  · intro o' t' hne hfree'
    simp [createOrderHandler, hne, pgInsert, hfree']

/-- Witness for C9: creating {id:"", item:"Widget", quantity:2} at time 1
stores and echoes the generated id. -/
theorem createOrderHandler_fills_blank_id_witness :
    createOrderHandler (some ⟨"", "Widget", 2⟩) 1 [] =
      ⟨201, some ⟨formatNat 1, "Widget", 2⟩, [⟨formatNat 1, "Widget", 2⟩]⟩ :=
  (createOrderHandler_fills_blank_id ⟨"", "Widget", 2⟩ 1 [] rfl rfl).2.1

/-- Claim C10: the update handler ignores any id carried in the request
body — the outcome is identical for any body id, because the handler
overwrites the decoded order's ID with the path parameter before calling
Update — and whenever a body is echoed it carries the path identifier. -/
theorem updateOrderHandler_ignores_body_id (pathId : String) (o : Order)
    (x : String) (t : Table) :
    updateOrderHandler pathId (some o) t =
      updateOrderHandler pathId (some { o with ID := x }) t ∧
    ∀ r : Order, (updateOrderHandler pathId (some o) t).body = some r →
      r.ID = pathId := by
  have hb : (updateOrderHandler pathId (some o) t).body = none ∨
      (updateOrderHandler pathId (some o) t).body =
        some { o with ID := pathId } := by
    simp only [updateOrderHandler]
    rcases hPU : Postgres.Update t { o with ID := pathId } with ⟨t', _ | e⟩
    · right; rfl
    · cases e <;> (left; rfl)
  refine ⟨rfl, fun r hr => ?_⟩
  rcases hb with hbn | hbs
  · rw [hbn] at hr; cases hr
  · rw [hbs] at hr
    injection hr with hr
    rw [← hr]

/-- Witness for C10: updating /orders/7 with a body claiming id "9" gives
the same outcome as a body claiming id "x", and the echoed order carries
id "7". -/
theorem updateOrderHandler_ignores_body_id_witness :
    updateOrderHandler "7" (some ⟨"9", "Widget", 2⟩) [⟨"7", "Old", 1⟩] =
      updateOrderHandler "7" (some ⟨"x", "Widget", 2⟩) [⟨"7", "Old", 1⟩] ∧
    (⟨"7", "Widget", 2⟩ : Order).ID = "7" :=
  ⟨(updateOrderHandler_ignores_body_id "7" ⟨"9", "Widget", 2⟩ "x"
      [⟨"7", "Old", 1⟩]).1,
   (updateOrderHandler_ignores_body_id "7" ⟨"9", "Widget", 2⟩ "x"
      [⟨"7", "Old", 1⟩]).2 ⟨"7", "Widget", 2⟩ (by decide)⟩
